import Mathlib

/-!
Verification of the SMART-on-FHIR client authorization core
(`src/lib/smart.ts` plus its browser adapter) against its natural-language
specification.  The TypeScript source is shallowly embedded below: pure
functions become Lean functions, the effectful operations (`authorize`,
`completeAuth`, `ready`, `init`, ...) become explicit state-passing
functions over a `World` record holding the page URL, the storage map, the
I/O oracles and an event trace, and the discovery race (`any`) becomes a
fold over a settlement schedule.
-/

namespace FhirClient

/-! ## JavaScript value helpers

The source manipulates possibly-`undefined` strings and booleans and tests
them for JS truthiness (`undefined` and the empty string are falsy). -/

/-- JS truthiness of a possibly-undefined string value: `undefined` and `""`
are falsy, every other string is truthy. -/
def truthy : Option String → Bool
  | none => false
  | some s => s ≠ ""

/-- JS truthiness of a possibly-undefined boolean value. -/
def truthyB : Option Bool → Bool
  | none => false
  | some b => b

/-- JS `a || b` on possibly-undefined strings. -/
def jsOr (a b : Option String) : Option String :=
  if truthy a then a else b

/-- JS `String(a || b || "")` on possibly-undefined strings. -/
def jsOrEmpty (a b : Option String) : String :=
  if truthy a then a.getD "" else if truthy b then b.getD "" else ""

/-- JS `[a, b].filter(Boolean)`: keep only the truthy entries. -/
def filterTruthy (l : List (Option String)) : List String :=
  l.filterMap fun x => if truthy x then x else none

@[simp] theorem truthy_none : truthy none = false := rfl

@[simp] theorem truthy_some (s : String) : truthy (some s) = true ↔ s ≠ "" := by
  simp [truthy]

@[simp] theorem truthy_some_false (s : String) : truthy (some s) = false ↔ s = "" := by
  simp [truthy]

@[simp] theorem truthyB_none : truthyB none = false := rfl

@[simp] theorem truthyB_some (b : Bool) : truthyB (some b) = b := rfl

/-! ## Percent encoding (`encodeURIComponent`)

JavaScript's `encodeURIComponent` leaves the unreserved characters
`A-Z a-z 0-9 - _ . ! ~ * ' ( )` intact and percent-encodes every UTF-8
byte of any other character as `%XX` with upper-case hex digits. -/

/-- The characters `encodeURIComponent` leaves unescaped. -/
def uriUnreserved : List Char :=
  "ABCDEFGHIJKLMNOPQRSTUVWXYZabcdefghijklmnopqrstuvwxyz0123456789-_.!~*()".data
    ++ [Char.ofNat 39]

/-- Upper-case hexadecimal digit for a value below 16. -/
def hexDigit (n : Nat) : Char :=
  "0123456789ABCDEF".data.getD n 'X'

/-- UTF-8 bytes of a code point, as natural numbers below 256. -/
def utf8Bytes (n : Nat) : List Nat :=
  if n < 0x80 then [n]
  else if n < 0x800 then [0xC0 + n / 64, 0x80 + n % 64]
  else if n < 0x10000 then
    [0xE0 + n / 4096, 0x80 + n / 64 % 64, 0x80 + n % 64]
  else
    [0xF0 + n / 262144, 0x80 + n / 4096 % 64, 0x80 + n / 64 % 64, 0x80 + n % 64]

/-- `%XX` escape of one byte. -/
def pctByte (b : Nat) : List Char :=
  ['%', hexDigit (b / 16), hexDigit (b % 16)]

/-- Shallow embedding of JavaScript `encodeURIComponent`. -/
def encodeURIComponent (s : String) : String :=
  String.mk (s.data.flatMap fun c =>
    if c ∈ uriUnreserved then [c] else (utf8Bytes c.toNat).flatMap pctByte)

/-! ## Base64 (`btoa`)

The repository's `btoa` helper (imported from its `lib` module, which is
not under `src/`) is standard base64 over the char codes of a binary
string; browser `btoa` throws on char codes above 255.  Modelled from the
spec (§4.6 "Basic authentication header built from clientId:clientSecret")
as standard RFC 4648 base64. -/

/-- The base64 alphabet. -/
def b64Alphabet : List Char :=
  "ABCDEFGHIJKLMNOPQRSTUVWXYZabcdefghijklmnopqrstuvwxyz0123456789+/".data

/-- Character for a sextet value below 64. -/
def sextChar (n : Nat) : Char :=
  b64Alphabet.getD n '='

/-- Sextet value of an alphabet character, `none` for anything else
(including the `=` pad). -/
def sextVal (c : Char) : Option Nat :=
  b64Alphabet.findIdx? (fun x => x = c)

/-- Base64-encode a byte list (chunks of three bytes become four chars,
with `=` padding). -/
def b64encodeChars : List Nat → List Char
  | [] => []
  | [a] => [sextChar (a / 4), sextChar (a % 4 * 16), '=', '=']
  | [a, b] => [sextChar (a / 4), sextChar (a % 4 * 16 + b / 16), sextChar (b % 16 * 4), '=']
  | a :: b :: c :: rest =>
    sextChar (a / 4) :: sextChar (a % 4 * 16 + b / 16) ::
      sextChar (b % 16 * 4 + c / 64) :: sextChar (c % 64) :: b64encodeChars rest

/-- Base64-decode a char list back to its bytes; `none` on malformed
input. -/
def b64decodeChars : List Char → Option (List Nat)
  | [] => some []
  | c1 :: c2 :: c3 :: c4 :: rest =>
    match sextVal c1, sextVal c2, sextVal c3, sextVal c4 with
    | some v1, some v2, some v3, some v4 =>
      (b64decodeChars rest).map fun tail =>
        (v1 * 4 + v2 / 16) :: (v2 % 16 * 16 + v3 / 4) :: (v3 % 4 * 64 + v4) :: tail
    | some v1, some v2, some v3, none =>
      if c4 = '=' ∧ rest = [] then some [v1 * 4 + v2 / 16, v2 % 16 * 16 + v3 / 4] else none
    | some v1, some v2, none, none =>
      if c3 = '=' ∧ c4 = '=' ∧ rest = [] then some [v1 * 4 + v2 / 16] else none
    | _, _, _, _ => none
  | _ => none

/-- Char codes of a string, as natural numbers. -/
def strCodes (s : String) : List Nat :=
  s.data.map Char.toNat

/-- Shallow embedding of browser `btoa`: base64 of the char codes; fails
(throws `InvalidCharacterError`) when some char code exceeds 255. -/
def btoa (s : String) : Option String :=
  if s.data.all (fun c => c.toNat < 256) then
    some (String.mk (b64encodeChars (strCodes s)))
  else
    none

theorem sextVal_sextChar : ∀ n < 64, sextVal (sextChar n) = some n := by decide

theorem sextVal_eq : sextVal '=' = none := by decide

theorem b64_roundtrip : ∀ l : List Nat, (∀ b ∈ l, b < 256) →
    b64decodeChars (b64encodeChars l) = some l
  | [], _ => by simp [b64encodeChars, b64decodeChars]
  | [a], h => by
    have ha : a < 256 := h a (by simp)
    have h1 : a / 4 < 64 := by omega
    have h2 : a % 4 * 16 < 64 := by omega
    simp only [b64encodeChars, b64decodeChars, sextVal_sextChar _ h1,
      sextVal_sextChar _ h2, sextVal_eq, eq_self_iff_true, and_self, if_true,
      Option.some.injEq, List.cons.injEq, and_true]
    omega
  | [a, b], h => by
    have ha : a < 256 := h a (by simp)
    have hb : b < 256 := h b (by simp)
    have h1 : a / 4 < 64 := by omega
    have h2 : a % 4 * 16 + b / 16 < 64 := by omega
    have h3 : b % 16 * 4 < 64 := by omega
    simp only [b64encodeChars, b64decodeChars, sextVal_sextChar _ h1,
      sextVal_sextChar _ h2, sextVal_sextChar _ h3, sextVal_eq,
      eq_self_iff_true, and_self, if_true, Option.some.injEq, List.cons.injEq,
      and_true]
    omega
  | a :: b :: c :: rest, h => by
    have ha : a < 256 := h a (by simp)
    have hb : b < 256 := h b (by simp)
    have hc : c < 256 := h c (by simp)
    have h1 : a / 4 < 64 := by omega
    have h2 : a % 4 * 16 + b / 16 < 64 := by omega
    have h3 : b % 16 * 4 + c / 64 < 64 := by omega
    have h4 : c % 64 < 64 := by omega
    have ih := b64_roundtrip rest (fun x hx => h x (by simp [hx]))
    simp only [b64encodeChars, b64decodeChars, sextVal_sextChar _ h1,
      sextVal_sextChar _ h2, sextVal_sextChar _ h3, sextVal_sextChar _ h4, ih,
      Option.map_some', Option.some.injEq, List.cons.injEq, and_true]
    refine ⟨?_, ?_, ?_⟩ <;> omega

/-! ## Error model

The source signals failures by throwing; `assert(condition, message)` (a
helper from the repository's `lib` module, not under `src/`) throws when
`condition` is JS-falsy.  Modelled from the spec: §7 classifies the
failures into `ConfigError`, `DiscoveryError`, `AuthorizationError` and
`ValidationError`; browser `btoa` throws `InvalidCharacterError`; reading
a property of `undefined` throws a `TypeError`. -/

/-- Error kinds, following the spec's §7 classification. -/
inductive ErrKind where
  | configError
  | discoveryError
  | authorizationError
  | validationError
  | invalidCharacterError
  | typeError
deriving DecidableEq, Repr

/-- A thrown error: its §7 kind and its message. -/
structure SmartError where
  kind : ErrKind
  msg : String
deriving DecidableEq, Repr

/-! ## Data model -/

/-- The token response: an open mapping in the source; the fields the core
reads or writes are modelled explicitly. -/
structure TokenResponse where
  access_token : Option String := none
  expires_in : Option Nat := none
  patient : Option String := none
  encounter : Option String := none
  refresh_token : Option String := none
deriving DecidableEq, Repr

/-- The persisted `LaunchState` (`fhirclient.SMARTState`).  Fields the
source may leave `undefined` are `Option`s. -/
structure SMARTState where
  clientId : Option String := none
  scope : Option String := none
  redirectUri : Option String := none
  serverUrl : Option String := none
  clientSecret : Option String := none
  authorizeUri : Option String := none
  tokenUri : Option String := none
  registrationUri : Option String := none
  tokenResponse : TokenResponse := {}
  expiresAt : Option Nat := none
  multiple : Option Bool := none
  completeInTarget : Option Bool := none
deriving DecidableEq, Repr

/-- `OAuthSecurityExtensions`: the discovery result. -/
structure OAuthSecurityExtensions where
  registrationUri : String := ""
  authorizeUri : String := ""
  tokenUri : String := ""
deriving DecidableEq, Repr

/-- A storage slot holds either a plain string (the `SMART_KEY` alias
stores the current state key) or a serialized `SMARTState`. -/
inductive StorageVal where
  | str (s : String)
  | st (s : SMARTState)
deriving DecidableEq, Repr

/-- Modelled from the spec: the well-known singular storage key
(`SMART_KEY` from the repository's `settings` module, which is not under
`src/`) — a process-wide constant; its concrete text is immaterial. -/
def SMART_KEY : String := "SMART_KEY"

/-- The token request configuration built by `buildTokenRequest`
(`method`, the two headers the source sets, and the form body). -/
structure RequestOptions where
  method : String := "POST"
  contentType : String := "application/x-www-form-urlencoded"
  authorization : Option String := none
  body : String := ""
deriving DecidableEq, Repr

/-- The session object: `new Client(stored, { save })` binds the stored
value and the key the save callback writes back to. -/
structure Client where
  stored : StorageVal
  key : Option String
deriving DecidableEq, Repr

/-- Result of the completion/revival entry points: a session, or a
promise deliberately left pending forever (handshake/redirect paths). -/
inductive Outcome where
  | client (c : Client)
  | pending
deriving DecidableEq, Repr

/-! ## The world: page URL, storage, oracles and an event trace -/

/-- Observable events of one run. -/
inductive Ev where
  | sGet (key : String)
  | sSet (key : String) (v : StorageVal)
  | sUnset (key : String)
  | netDiscovery (serverUrl : String)
  | netToken (url : String) (req : RequestOptions)
  | redirect (url : String)
  | replaceState (href : String)
  | postMessage (href : String)
  | targetDispatch (url : String)
  | warn
deriving DecidableEq, Repr

/-- The explicit state threaded through the embedded effectful functions:
the current URL (base plus search params), the key-value storage, the
environment flags of the adapter, the I/O oracles (fresh random key,
discovery outcome, token-endpoint outcome, the adapter's `relative`
resolver, the expiry helper) and the accumulated event trace. -/
structure World where
  urlBase : String := "https://app.example/"
  urlParams : List (String × String) := []
  storage : List (String × StorageVal) := []
  browser : Bool := false
  inFrame : Bool := false
  inPopUp : Bool := false
  hasReplaceState : Bool := true
  stateKey : String := "0000000000000000"
  discoveryResp : Except SmartError OAuthSecurityExtensions := .error ⟨.discoveryError, ""⟩
  transportResp : Except SmartError TokenResponse := .error ⟨.validationError, ""⟩
  relativeFn : String → String := fun p => "https://app.example/" ++ p
  expirationFn : TokenResponse → Nat := fun _ => 0
  trace : List Ev := []

/-- `URLSearchParams.get`: first value under the name, `null` if absent. -/
def paramGet (ps : List (String × String)) (k : String) : Option String :=
  (ps.find? fun q => q.1 = k).map (·.2)

/-- `URLSearchParams.delete`: drop every value under the name. -/
def paramDelete (ps : List (String × String)) (k : String) : List (String × String) :=
  ps.filter fun q => q.1 ≠ k

/-- `URLSearchParams.set`: replace the values under the name (appended at
the end; the flows below only ever set absent names). -/
def paramSet (ps : List (String × String)) (k v : String) : List (String × String) :=
  paramDelete ps k ++ [(k, v)]

/-- Storage lookup (`Storage.get`). -/
def storageLookup (st : List (String × StorageVal)) (k : String) : Option StorageVal :=
  (st.find? fun q => q.1 = k).map (·.2)

/-- Storage update (`Storage.set`). -/
def storageInsert (st : List (String × StorageVal)) (k : String) (v : StorageVal) :
    List (String × StorageVal) :=
  (st.filter fun q => q.1 ≠ k) ++ [(k, v)]

/-- The page `url.href`: base plus the remaining search params. -/
def hrefOf (w : World) : String :=
  w.urlBase ++
    (if w.urlParams.isEmpty then ""
     else "?" ++ String.intercalate "&" (w.urlParams.map fun q => q.1 ++ "=" ++ q.2))

/-! ## Token Exchanger (`buildTokenRequest`) -/

/-- Shallow embedding of `buildTokenRequest(code, state)` from
`src/lib/smart.ts`: asserts `redirectUri`, `tokenUri` and `clientId`, then
builds the POST body; with a truthy `clientSecret` it adds the HTTP Basic
header, otherwise it appends `client_id` to the body. -/
def buildTokenRequest (code : String) (state : SMARTState) :
    Except SmartError RequestOptions :=
  if ¬ truthy state.redirectUri then
    .error ⟨.configError, "Missing state.redirectUri"⟩
  else if ¬ truthy state.tokenUri then
    .error ⟨.configError, "Missing state.tokenUri"⟩
  else if ¬ truthy state.clientId then
    .error ⟨.configError, "Missing state.clientId"⟩
  else
    let redirectUri := state.redirectUri.getD ""
    let clientId := state.clientId.getD ""
    let body := "code=" ++ code ++ "&grant_type=authorization_code&redirect_uri="
      ++ encodeURIComponent redirectUri
    if truthy state.clientSecret then
      match btoa (clientId ++ ":" ++ state.clientSecret.getD "") with
      | some b =>
        .ok { method := "POST", contentType := "application/x-www-form-urlencoded",
              authorization := some ("Basic " ++ b), body := body }
      | none => .error ⟨.invalidCharacterError, "Invalid character in btoa input"⟩
    else
      .ok { method := "POST", contentType := "application/x-www-form-urlencoded",
            authorization := none,
            body := body ++ "&client_id=" ++ encodeURIComponent clientId }

/-- JS truthiness of a storage lookup result (an object is truthy, a
string is truthy when non-empty, `undefined` is falsy). -/
def svTruthy : Option StorageVal → Bool
  | none => false
  | some (.str s) => s ≠ ""
  | some (.st _) => true

/-- Reading the `SMARTState` fields off a stored value: property access on
a stored string yields `undefined` for every field. -/
def svState : Option StorageVal → SMARTState
  | some (.st s) => s
  | _ => {}

/-- Storage read, traced (`Storage.get`). -/
def sGetW (w : World) (k : String) : Option StorageVal × World :=
  (storageLookup w.storage k, { w with trace := w.trace ++ [Ev.sGet k] })

/-- Storage write, traced (`Storage.set`). -/
def sSetW (w : World) (k : String) (v : StorageVal) : World :=
  { w with storage := storageInsert w.storage k v, trace := w.trace ++ [Ev.sSet k v] }

/-- `env.redirect(url)`, traced. -/
def redirectW (w : World) (u : String) : World :=
  { w with trace := w.trace ++ [Ev.redirect u] }

/-- Does `pat` occur at the head of `l`? -/
def leadsWith : List Char → List Char → Bool
  | [], _ => true
  | _ :: _, [] => false
  | a :: as, b :: bs => (a = b) && leadsWith as bs

/-- Does `pat` occur somewhere in `l`? -/
def subAux (pat : List Char) : List Char → Bool
  | [] => leadsWith pat []
  | c :: rest => leadsWith pat (c :: rest) || subAux pat rest

/-- JS `s.match(/pat/)` truthiness: does `pat` occur in `s` as a
substring? -/
def hasSubstr (s pat : String) : Bool :=
  subAux pat.data s.data

/-- The space-delimited tokens of a scope string. -/
def splitTokAux : List Char → List Char → List (List Char)
  | [], acc => [acc.reverse]
  | c :: rest, acc =>
    if c = ' ' then acc.reverse :: splitTokAux rest [] else splitTokAux rest (c :: acc)

/-- The space-delimited tokens of a scope string. -/
def scopeTokens (s : String) : List String :=
  (splitTokAux s.data []).map String.mk

/-! ## Launch Initiator (`authorize`, single configuration)

The multi-configuration entry merely selects one configuration by
`issMatch` and recurses; the claims below are all about the
single-configuration flow, which is what is embedded.  The
`getTargetWindow` window plumbing is abstracted into one
`targetDispatch` trace event. -/

/-- The single-configuration `authorize` options (`width`/`height` only
feed the popup helper and are omitted). -/
structure AuthorizeParams where
  iss : Option String := none
  launch : Option String := none
  fhirServiceUrl : Option String := none
  redirectUri : Option String := none
  scope : String := ""
  clientId : Option String := none
  clientSecret : Option String := none
  completeInTarget : Option Bool := none
  fakeTokenResponse : Option TokenResponse := none
  patientId : Option String := none
  encounterId : Option String := none
  noRedirect : Bool := false
  target : Option String := none
  multiple : Option Bool := none

/-- `Object.assign(base, over)` on token responses: fields present in
`over` win. -/
def mergeTokenResponse (base over : TokenResponse) : TokenResponse where
  access_token := over.access_token.orElse fun _ => base.access_token
  expires_in := over.expires_in.orElse fun _ => base.expires_in
  patient := over.patient.orElse fun _ => base.patient
  encounter := over.encounter.orElse fun _ => base.encounter
  refresh_token := over.refresh_token.orElse fun _ => base.refresh_token

/-- The development overrides applied to the fresh state's
`tokenResponse` (`fakeTokenResponse`, fixed `patientId`, fixed
`encounterId`). -/
def applyOverrides (p : AuthorizeParams) (tr : TokenResponse) : TokenResponse :=
  let tr := match p.fakeTokenResponse with
    | some f => mergeTokenResponse tr f
    | none => tr
  let tr := if truthy p.patientId then { tr with patient := p.patientId } else tr
  if truthy p.encounterId then { tr with encounter := p.encounterId } else tr

/-- `iss`, after the URL parameter override (URL wins). -/
def effIss (p : AuthorizeParams) (w : World) : Option String :=
  jsOr (paramGet w.urlParams "iss") p.iss

/-- `fhirServiceUrl`, after the URL parameter override. -/
def effFsu (p : AuthorizeParams) (w : World) : Option String :=
  jsOr (paramGet w.urlParams "fhirServiceUrl") p.fhirServiceUrl

/-- `launch`, after the URL parameter override. -/
def effLaunch (p : AuthorizeParams) (w : World) : Option String :=
  jsOr (paramGet w.urlParams "launch") p.launch

/-- The resolved `redirectUri`: the option if absolute, else resolved
relative to the page, defaulting to the current directory. -/
def effRedirectUri (p : AuthorizeParams) (w : World) : String :=
  if ¬ truthy p.redirectUri then w.relativeFn "."
  else if leadsWith "http://".data (p.redirectUri.getD "").data = true
       ∨ leadsWith "https://".data (p.redirectUri.getD "").data = true then
    p.redirectUri.getD ""
  else w.relativeFn (p.redirectUri.getD "")

/-- `serverUrl = String(iss || fhirServiceUrl || "")`. -/
def effServerUrl (p : AuthorizeParams) (w : World) : String :=
  jsOrEmpty (effIss p w) (effFsu p w)

/-- The effective scope: `" launch"` is appended when a launch value is
present and the scope does not already match `/launch/`. -/
def effScope (p : AuthorizeParams) (w : World) : String :=
  if truthy (effLaunch p w) ∧ ¬ hasSubstr p.scope "launch" then
    (if p.scope ≠ "" then p.scope ++ " launch" else "launch")
  else p.scope

/-- Shallow embedding of the single-configuration `authorize(env, params)`
from `src/lib/smart.ts`.  Returns `some url` (the value resolved when
`noRedirect` is requested) or `none` (a navigation was dispatched), and
the updated world. -/
def authorize (p : AuthorizeParams) (w : World) :
    Except SmartError (Option String) × World :=
  let iss := effIss p w
  let fhirServiceUrl := effFsu p w
  let launch := effLaunch p w
  let redirectUri := effRedirectUri p w
  let serverUrl := effServerUrl p w
  if serverUrl = "" then
    (.error ⟨.configError,
      "No server url found. It must be specified as \"iss\" or as \"fhirServiceUrl\" parameter"⟩, w)
  else
    let scope := effScope p w
    let ambiguous := w.browser ∧ (w.inFrame ∨ w.inPopUp) ∧ p.completeInTarget = none
    let completeInTarget := if ambiguous then some w.inFrame else p.completeInTarget
    let w := if ambiguous then { w with trace := w.trace ++ [Ev.warn] } else w
    let stateKey := w.stateKey
    let state : SMARTState :=
      { clientId := p.clientId, scope := some scope, redirectUri := some redirectUri,
        serverUrl := some serverUrl, clientSecret := p.clientSecret,
        tokenResponse := {}, multiple := p.multiple, completeInTarget := completeInTarget }
    let w := if ¬ truthyB p.multiple then sSetW w SMART_KEY (.str stateKey) else w
    let state := { state with tokenResponse := applyOverrides p state.tokenResponse }
    let redirectUrl := redirectUri ++ "?state=" ++ encodeURIComponent stateKey
    if truthy fhirServiceUrl ∧ ¬ truthy iss then
      let w := sSetW w stateKey (.st state)
      if p.noRedirect then (.ok (some redirectUrl), w)
      else (.ok none, redirectW w redirectUrl)
    else
      let w := { w with trace := w.trace ++ [Ev.netDiscovery serverUrl] }
      match w.discoveryResp with
      | .error e => (.error e, w)
      | .ok extensions =>
        let state := { state with
          registrationUri := some extensions.registrationUri,
          authorizeUri := some extensions.authorizeUri,
          tokenUri := some extensions.tokenUri }
        let w := sSetW w stateKey (.st state)
        if ¬ truthy state.authorizeUri then
          if p.noRedirect then (.ok (some redirectUrl), w)
          else (.ok none, redirectW w redirectUrl)
        else
          let redirectParams :=
            ["response_type=code",
             "client_id=" ++ encodeURIComponent (p.clientId.getD ""),
             "scope=" ++ encodeURIComponent scope,
             "redirect_uri=" ++ encodeURIComponent redirectUri,
             "aud=" ++ encodeURIComponent serverUrl,
             "state=" ++ encodeURIComponent stateKey]
          let redirectParams :=
            if truthy launch then
              redirectParams ++ ["launch=" ++ encodeURIComponent (launch.getD "")]
            else redirectParams
          let redirectUrl := extensions.authorizeUri ++ "?" ++
            String.intercalate "&" redirectParams
          if p.noRedirect then (.ok (some redirectUrl), w)
          else if truthy p.target ∧ w.browser then
            (.ok none, { w with trace := w.trace ++ [Ev.targetDispatch redirectUrl] })
          else (.ok none, redirectW w redirectUrl)

/-! ## Completion Handler -/

/-- Tail of `cleanUpUrl`: in-place history replacement when available,
otherwise an actual navigation to the cleaned URL. -/
def cleanUpDispatch (w : World) : Except SmartError Unit × World :=
  if w.browser ∧ w.hasReplaceState then
    (.ok (), { w with trace := w.trace ++ [Ev.replaceState (hrefOf w)] })
  else
    (.ok (), redirectW w (hrefOf w))

/-- Shallow embedding of `cleanUpUrl(adapter)`: removes `code`; unless the
stored state is in `multiple` mode, re-aliases the state key under
`SMART_KEY` and removes `state` too. -/
def cleanUpUrl (w : World) : Except SmartError Unit × World :=
  let code := paramGet w.urlParams "code"
  let stateP := paramGet w.urlParams "state"
  let w := if truthy code then { w with urlParams := paramDelete w.urlParams "code" } else w
  if truthy stateP then
    let (stored, w) := sGetW w (stateP.getD "")
    match stored with
    | none =>
      (.error ⟨.typeError, "Cannot read properties of undefined (reading multiple)"⟩, w)
    | some v =>
      let multiple : Bool := match v with | .str _ => false | .st s => truthyB s.multiple
      if multiple = false then
        let w := sSetW w SMART_KEY (.str (stateP.getD ""))
        let w := { w with urlParams := paramDelete w.urlParams "state" }
        cleanUpDispatch w
      else
        cleanUpDispatch w
  else
    cleanUpDispatch w

/-- Shallow embedding of `getAccessToken(adapter, code, state)`: builds
the token request from the stored state and issues it to
`state.tokenUri`. -/
def getAccessToken (code stateParam : Option String) (w : World) :
    Except SmartError TokenResponse × World :=
  if ¬ truthy code then (.error ⟨.configError, "code parameter is required"⟩, w)
  else if ¬ truthy stateParam then
    (.error ⟨.configError, "state parameter is required"⟩, w)
  else
    let (storedOpt, w) := sGetW w (stateParam.getD "")
    match storedOpt with
    | none => (.error ⟨.typeError, "Cannot destructure undefined stored state"⟩, w)
    | some v =>
      let stored := svState (some v)
      match buildTokenRequest (code.getD "") stored with
      | .error e => (.error e, w)
      | .ok requestOptions =>
        if ¬ truthy stored.tokenUri then
          (.error ⟨.configError, "No tokenUri found for this server"⟩, w)
        else
          let w := { w with
            trace := w.trace ++ [Ev.netToken (stored.tokenUri.getD "") requestOptions] }
          match w.transportResp with
          | .error e => (.error e, w)
          | .ok tokenResponse =>
            if ¬ truthy tokenResponse.access_token then
              (.error ⟨.validationError, "Failed to obtain access token."⟩, w)
            else (.ok tokenResponse, w)

/-! ## Session Revival -/

/-- Shallow embedding of `getClient(adapter, key)`: loads the state by key
and binds a session to it.  `ready` may pass an undefined key (nothing
under `SMART_KEY`); the lookup then finds nothing. -/
def getClient (key : Option String) (w : World) : Except SmartError Client × World :=
  match key with
  | none =>
    (.error ⟨.configError, "No state found in storage. Please (re)launch the SMART app"⟩, w)
  | some k =>
    let (stored, w) := sGetW w k
    match stored with
    | some v =>
      if svTruthy (some v) then (.ok ⟨v, some k⟩, w)
      else
        (.error ⟨.configError, "No state found in storage. Please (re)launch the SMART app"⟩, w)
    | none =>
      (.error ⟨.configError, "No state found in storage. Please (re)launch the SMART app"⟩, w)

/-- The condition under which `completeAuth` posts the completion message
to its opener/parent and leaves its promise pending: running in a browser
iframe/popup, a truthy stored state not requesting same-window
completion, and the one-shot `complete` guard parameter absent. -/
def handshakeSend (browser inFrame inPopUp : Bool) (completeParam : Option String)
    (stateOpt : Option StorageVal) : Prop :=
  browser = true ∧ svTruthy stateOpt = true
    ∧ ¬ (truthyB (svState stateOpt).completeInTarget = true)
    ∧ (inFrame = true ∨ inPopUp = true)
    ∧ ¬ (truthy completeParam = true)

instance (browser inFrame inPopUp : Bool) (completeParam : Option String)
    (stateOpt : Option StorageVal) :
    Decidable (handshakeSend browser inFrame inPopUp completeParam stateOpt) := by
  unfold handshakeSend
  infer_instance

/-- Wraps a revived `Client` into the entry points' `Outcome`. -/
def mapClient : Except SmartError Client × World → Except SmartError Outcome × World
  | (.ok c, w) => (.ok (.client c), w)
  | (.error e, w) => (.error e, w)

/-- Tail of `completeAuth`: clean up the URL, then return the revived
session. -/
def finishAuth (key : Option String) (w : World) : Except SmartError Outcome × World :=
  match cleanUpUrl w with
  | (.error e, w) => (.error e, w)
  | (.ok _, w) => mapClient (getClient key w)

/-- Shallow embedding of `completeAuth(env)` from `src/lib/smart.ts`. -/
def completeAuth (w : World) : Except SmartError Outcome × World :=
  let code := paramGet w.urlParams "code"
  let authError := paramGet w.urlParams "error"
  let authErrorDescription := paramGet w.urlParams "error_description"
  let key := paramGet w.urlParams "state"
  if truthy authError ∨ truthy authErrorDescription then
    (.error ⟨.authorizationError,
      String.intercalate ": " (filterTruthy [authError, authErrorDescription])⟩, w)
  else if ¬ truthy key then
    (.error ⟨.configError, "No state parameter found. Please launch this as SMART app."⟩, w)
  else
    let (stateOpt, w) := sGetW w (key.getD "")
    if handshakeSend w.browser w.inFrame w.inPopUp (paramGet w.urlParams "complete")
        stateOpt then
      let w := { w with urlParams := paramSet w.urlParams "complete" "1" }
      let w := { w with trace := w.trace ++ [Ev.postMessage (hrefOf w)] }
      (.ok .pending, w)
    else
      let w := { w with urlParams := paramDelete w.urlParams "complete" }
      if ¬ svTruthy stateOpt then
        (.error ⟨.configError, "No state found! Please (re)launch the app."⟩, w)
      else
        let st := svState stateOpt
        let authorized := ¬ truthy code ∨ truthy st.tokenResponse.access_token
        if ¬ authorized ∧ truthy st.tokenUri then
          if ¬ truthy code then
            (.error ⟨.configError, "code url parameter is required"⟩, w)
          else
            match getAccessToken code key w with
            | (.error e, w) => (.error e, w)
            | (.ok tokenResponse, w) =>
              let st := { st with
                expiresAt := some (w.expirationFn tokenResponse),
                tokenResponse := tokenResponse }
              let w := sSetW w (key.getD "") (.st st)
              finishAuth key w
        else
          finishAuth key w

/-- Shallow embedding of `ready(env)` (the optional success/error
callbacks are chained onto the outcome without altering it and are not
modelled). -/
def ready (w : World) : Except SmartError Outcome × World :=
  let code := paramGet w.urlParams "code"
  let state := paramGet w.urlParams "state"
  if truthy code then completeAuth w
  else if truthy state then mapClient (getClient state w)
  else
    let (keyVal, w) := sGetW w SMART_KEY
    let key : Option String := match keyVal with | some (.str s) => some s | _ => none
    mapClient (getClient key w)

/-- Shallow embedding of `init(env, options)` (single-configuration
options). -/
def init (p : AuthorizeParams) (w : World) : Except SmartError Outcome × World :=
  let code := paramGet w.urlParams "code"
  let state := paramGet w.urlParams "state"
  if truthy code ∧ truthy state then completeAuth w
  else
    let (key, w) : Option String × World :=
      if truthy state then (state, w)
      else
        let (kv, w) := sGetW w SMART_KEY
        (match kv with | some (.str s) => some s | _ => none, w)
    let (cached, w) := match key with | some k => sGetW w k | none => (none, w)
    match cached with
    | some v =>
      if svTruthy (some v) then (.ok (.client ⟨v, key⟩), w)
      else
        match authorize p w with
        | (.error e, w) => (.error e, w)
        | (.ok _, w) => (.ok .pending, w)
    | none =>
      match authorize p w with
      | (.error e, w) => (.error e, w)
      | (.ok _, w) => (.ok .pending, w)

/-! ## Theorems -/

theorem strCodes_inj {s t : String} (h : strCodes s = strCodes t) : s = t := by
  rcases s with ⟨ds⟩
  rcases t with ⟨dt⟩
  have : ds = dt := by
    refine List.map_injective_iff.mpr ?_ h
    intro c1 c2 hc
    have hv : c1.val = c2.val := by
      unfold Char.toNat at hc
      exact UInt32.toNat.inj hc
    exact Char.ext hv
  simp [this]

/-- C2. `buildTokenRequest(code, state)` builds the form-encoded POST
request: the body is exactly
`code=<code>&grant_type=authorization_code&redirect_uri=<encoded redirectUri>`;
with a `clientSecret` the request carries a Basic authorization header
whose base64 payload decodes to exactly `clientId:clientSecret` and the
body carries no `client_id` field; without a secret the body additionally
carries `&client_id=<encoded clientId>` and there is no authorization
header; and the call fails with a `ConfigError` whenever `redirectUri`,
`tokenUri` or `clientId` is missing from the state. -/
theorem buildTokenRequest_correct (code : String) (st : SMARTState) :
    (¬ truthy st.redirectUri →
      buildTokenRequest code st = .error ⟨.configError, "Missing state.redirectUri"⟩)
    ∧ (truthy st.redirectUri → ¬ truthy st.tokenUri →
      buildTokenRequest code st = .error ⟨.configError, "Missing state.tokenUri"⟩)
    ∧ (truthy st.redirectUri → truthy st.tokenUri → ¬ truthy st.clientId →
      buildTokenRequest code st = .error ⟨.configError, "Missing state.clientId"⟩)
    ∧ (∀ ru ci, st.redirectUri = some ru → ru ≠ "" → truthy st.tokenUri →
        st.clientId = some ci → ci ≠ "" →
      (∀ cs, st.clientSecret = some cs → cs ≠ "" →
          (∀ ch ∈ (ci ++ ":" ++ cs).data, ch.toNat < 256) →
        buildTokenRequest code st = .ok
          { method := "POST", contentType := "application/x-www-form-urlencoded",
            authorization :=
              some ("Basic " ++ String.mk (b64encodeChars (strCodes (ci ++ ":" ++ cs)))),
            body := "code=" ++ code ++ "&grant_type=authorization_code&redirect_uri="
              ++ encodeURIComponent ru }
        ∧ b64decodeChars (b64encodeChars (strCodes (ci ++ ":" ++ cs)))
            = some (strCodes (ci ++ ":" ++ cs))
        ∧ (∀ t : String, strCodes t = strCodes (ci ++ ":" ++ cs) → t = ci ++ ":" ++ cs))
      ∧ (¬ truthy st.clientSecret →
        buildTokenRequest code st = .ok
          { method := "POST", contentType := "application/x-www-form-urlencoded",
            authorization := none,
            body := "code=" ++ code ++ "&grant_type=authorization_code&redirect_uri="
              ++ encodeURIComponent ru ++ "&client_id=" ++ encodeURIComponent ci })) := by
  refine ⟨?_, ?_, ?_, ?_⟩
  · intro h
    simp [buildTokenRequest, h]
  · intro h1 h2
    simp [buildTokenRequest, h1, h2]
  · intro h1 h2 h3
    simp [buildTokenRequest, h1, h2, h3]
  · intro ru ci hru hrune htu hci hcine
    have h1 : truthy st.redirectUri := by simp [hru, truthy, hrune]
    have h3 : truthy st.clientId := by simp [hci, truthy, hcine]
    constructor
    · intro cs hcs hcsne hcodes
      have h4 : truthy st.clientSecret := by simp [hcs, truthy, hcsne]
      have hall : (ci ++ ":" ++ cs).data.all (fun c => c.toNat < 256) = true := by
        rw [List.all_eq_true]
        intro c hc
        exact decide_eq_true (hcodes c hc)
      have hci256 : ∀ x ∈ ci.data, x.toNat < 256 := by
        intro x hx
        apply hcodes
        simp [hx]
      have hcs256 : ∀ x ∈ cs.data, x.toNat < 256 := by
        intro x hx
        apply hcodes
        simp [hx]
      refine ⟨?_, b64_roundtrip _ ?_, ?_⟩
      · simp [buildTokenRequest, hru, hci, hcs, hrune, hcine, hcsne, htu,
          btoa, hci256, hcs256]
        rw [if_pos ⟨hci256, hcs256⟩]
      · intro b hb
        simp only [strCodes, List.mem_map] at hb
        obtain ⟨c, hc, rfl⟩ := hb
        exact of_decide_eq_true (List.all_eq_true.mp hall c hc)
      · intro t ht
        exact strCodes_inj ht
    · intro h4
      simp [buildTokenRequest, hru, hci, hrune, hcine, htu, h4]

theorem jsOrEmpty_ne {a b : Option String} (h : truthy a = true) :
    jsOrEmpty a b ≠ "" := by
  cases a with
  | none => simp at h
  | some s =>
    rw [truthy_some] at h
    simp [jsOrEmpty, truthy, h]

/-- Navigation events (actual redirect or dispatch into a target
window). -/
def isNavEv : Ev → Bool
  | .redirect _ => true
  | .targetDispatch _ => true
  | _ => false

/-- The full OAuth authorization redirect URL the Launch Initiator builds:
the discovered authorize endpoint followed by `?` and exactly the
`response_type`, `client_id`, `scope`, `redirect_uri`, `aud` (the server
URL) and `state` (the fresh state key) query parameters, each value
URL-encoded, plus `launch` when a launch value is present. -/
def oauthRedirectUrl (p : AuthorizeParams) (w : World) (au : String) : String :=
  au ++ "?" ++ String.intercalate "&"
    (["response_type=code",
      "client_id=" ++ encodeURIComponent (p.clientId.getD ""),
      "scope=" ++ encodeURIComponent (effScope p w),
      "redirect_uri=" ++ encodeURIComponent (effRedirectUri p w),
      "aud=" ++ encodeURIComponent (effServerUrl p w),
      "state=" ++ encodeURIComponent w.stateKey] ++
     (if truthy (effLaunch p w) then
        ["launch=" ++ encodeURIComponent ((effLaunch p w).getD "")] else []))

/-- Witness for C2 at a concrete confidential-client state. -/
theorem buildTokenRequest_correct_witness :
    buildTokenRequest "xyz"
      { redirectUri := some "https://app.example/", tokenUri := some "https://t",
        clientId := some "abc", clientSecret := some "secret" } = .ok
      { method := "POST", contentType := "application/x-www-form-urlencoded",
        authorization :=
          some ("Basic " ++ String.mk (b64encodeChars (strCodes ("abc" ++ ":" ++ "secret")))),
        body := "code=xyz&grant_type=authorization_code&redirect_uri="
          ++ encodeURIComponent "https://app.example/" } := by
  have h := (buildTokenRequest_correct "xyz"
    { redirectUri := some "https://app.example/", tokenUri := some "https://t",
      clientId := some "abc", clientSecret := some "secret" }).2.2.2
    "https://app.example/" "abc" rfl (by decide) (by decide) rfl (by decide)
  have h2 := (h.1 "secret" rfl (by decide) (by decide)).1
  exact h2

/-- C1. With a single configuration whose effective `iss` is set and a
discovery result carrying a non-empty `authorizeUri`, the redirect URL
`authorize` computes is exactly `oauthRedirectUrl` (the authorize endpoint
plus `?` and the `response_type=code`, `client_id`, `scope`,
`redirect_uri`, `aud=<serverUrl>`, `state=<stateKey>` parameters, each
value URL-encoded, plus `launch` when a launch value is present); with
`noRedirect` this URL is the returned value and no navigation is
dispatched, otherwise (absent a target window) it is navigated to. -/
theorem authorize_redirect_url (p : AuthorizeParams) (w : World)
    (exts : OAuthSecurityExtensions)
    (hiss : truthy (effIss p w) = true)
    (hd : w.discoveryResp = .ok exts)
    (hau : exts.authorizeUri ≠ "") :
    (p.noRedirect = true →
      (authorize p w).1 = .ok (some (oauthRedirectUrl p w exts.authorizeUri))
      ∧ ((authorize p w).2.trace.countP (fun e => isNavEv e)
          = w.trace.countP (fun e => isNavEv e)))
    ∧ (p.noRedirect = false → (w.browser = false ∨ truthy p.target = false) →
      (authorize p w).1 = .ok none
      ∧ (authorize p w).2.trace.getLast?
          = some (.redirect (oauthRedirectUrl p w exts.authorizeUri))) := by
  have hsrv : ¬ (effServerUrl p w = "") := jsOrEmpty_ne hiss
  have hbypass : ¬ (truthy (effFsu p w) = true ∧ truthy (effIss p w) = false) := by
    simp [hiss]
  have hauT : truthy (some exts.authorizeUri) = true := by simp [hau]
  constructor
  · intro hnr
    by_cases hamb : (w.browser = true ∧ (w.inFrame = true ∨ w.inPopUp = true)
        ∧ p.completeInTarget = none)
      <;> by_cases hmul : (¬ truthyB p.multiple = true)
      <;> by_cases hl : truthy (effLaunch p w) = true
      <;> simp [authorize, hsrv, hbypass, hamb, hmul, hd, hauT, hnr, hl,
            oauthRedirectUrl, sSetW, List.countP_append, isNavEv]
  · intro hnr htgt
    rcases htgt with hb | ht
    · by_cases hmul : (¬ truthyB p.multiple = true)
        <;> by_cases hl : truthy (effLaunch p w) = true
        <;> simp [authorize, hsrv, hbypass, hb, hmul, hd, hauT, hnr, hl,
              oauthRedirectUrl, sSetW, redirectW]
    · by_cases hamb : (w.browser = true ∧ (w.inFrame = true ∨ w.inPopUp = true)
          ∧ p.completeInTarget = none)
        <;> by_cases hmul : (¬ truthyB p.multiple = true)
        <;> by_cases hl : truthy (effLaunch p w) = true
        <;> simp [authorize, hsrv, hbypass, hamb, ht, hmul, hd, hauT, hnr, hl,
              oauthRedirectUrl, sSetW, redirectW]

/-- Concrete launch configuration used by several closed checks. -/
def pDemo : AuthorizeParams :=
  { clientId := some "abc", scope := "launch patient", iss := some "https://ehr.example/fhir",
    noRedirect := true }

/-- Concrete world whose discovery oracle answers with a full endpoint
set. -/
def wDemo : World :=
  { discoveryResp := .ok
      { authorizeUri := "https://ehr.example/auth", tokenUri := "https://ehr.example/token" } }

/-- Witness for C1: at the concrete configuration the value returned
under `noRedirect` is exactly the OAuth redirect URL. -/
theorem authorize_redirect_url_witness :
    (authorize pDemo wDemo).1 = .ok (some (oauthRedirectUrl pDemo wDemo "https://ehr.example/auth"))
    ∧ (authorize pDemo wDemo).2.trace.countP (fun e => isNavEv e)
        = wDemo.trace.countP (fun e => isNavEv e) :=
  (authorize_redirect_url pDemo wDemo
    { authorizeUri := "https://ehr.example/auth", tokenUri := "https://ehr.example/token" }
    (by decide) rfl (by decide)).1 rfl

theorem jsOrEmpty_ne_right {a b : Option String} (hb : truthy b = true) :
    jsOrEmpty a b ≠ "" := by
  cases b with
  | none => simp at hb
  | some s =>
    rw [truthy_some] at hb
    cases a with
    | none => simp [jsOrEmpty, truthy, hb]
    | some t =>
      by_cases ht : t = "" <;> simp [jsOrEmpty, truthy, hb, ht]

theorem storageLookup_insert_self (st : List (String × StorageVal)) (k : String)
    (v : StorageVal) : storageLookup (storageInsert st k v) k = some v := by
  have hnone : (st.filter fun q => q.1 ≠ k).find? (fun q => q.1 = k) = none := by
    rw [List.find?_eq_none]
    intro x hx
    have hx2 := (List.mem_filter.mp hx).2
    simpa using hx2
  simp [storageLookup, storageInsert, List.find?_append, hnone]

theorem find?_filter_ne {α : Type} (st : List (String × α)) (k k' : String)
    (h : k' ≠ k) :
    (st.filter fun q => q.1 ≠ k).find? (fun q => q.1 = k')
      = st.find? (fun q => q.1 = k') := by
  induction st with
  | nil => rfl
  | cons q rest ih =>
    rw [List.filter_cons]
    by_cases h1 : q.1 = k
    · have h2 : ¬ q.1 = k' := by
        rw [h1]
        exact fun hh => h hh.symm
      rw [if_neg (by simp [h1]), ih, List.find?_cons_of_neg _ (by simp [h2])]
    · rw [if_pos (by simp [h1])]
      by_cases h2 : q.1 = k'
      · rw [List.find?_cons_of_pos _ (by simp [h2]),
          List.find?_cons_of_pos _ (by simp [h2])]
      · rw [List.find?_cons_of_neg _ (by simp [h2]),
          List.find?_cons_of_neg _ (by simp [h2]), ih]

theorem storageLookup_insert_ne (st : List (String × StorageVal)) (k k' : String)
    (v : StorageVal) (h : k' ≠ k) :
    storageLookup (storageInsert st k v) k' = storageLookup st k' := by
  have h2 : ([(k, v)].find? fun q => q.1 = k') = none := by
    have hd : decide (k = k') = false := decide_eq_false fun hh => h hh.symm
    simp [List.find?, hd]
  simp only [storageLookup, storageInsert, List.find?_append, h2, Option.or_none]
  rw [find?_filter_ne st k k' h]

/-- C8. When `fhirServiceUrl` is used without `iss`, or discovery returns
an empty `authorizeUri` (open server), the launch state is persisted and
the computed redirect target is exactly `redirectUri?state=<stateKey>`:
the OAuth authorization query string is never built; with `noRedirect`
that short URL is the returned value. -/
theorem authorize_open_server (p : AuthorizeParams) (w : World)
    (exts : OAuthSecurityExtensions)
    (hcase :
      (truthy (effIss p w) = false ∧ truthy (effFsu p w) = true)
      ∨ (truthy (effIss p w) = true ∧ w.discoveryResp = .ok exts
          ∧ exts.authorizeUri = "")) :
    (storageLookup (authorize p w).2.storage w.stateKey).isSome = true
    ∧ (svState (storageLookup (authorize p w).2.storage w.stateKey)).scope
        = some (effScope p w)
    ∧ (svState (storageLookup (authorize p w).2.storage w.stateKey)).serverUrl
        = some (effServerUrl p w)
    ∧ (p.noRedirect = true →
        (authorize p w).1
          = .ok (some (effRedirectUri p w ++ "?state=" ++ encodeURIComponent w.stateKey)))
    ∧ (p.noRedirect = false →
        (authorize p w).1 = .ok none
        ∧ (authorize p w).2.trace.getLast?
            = some (.redirect
                (effRedirectUri p w ++ "?state=" ++ encodeURIComponent w.stateKey))) := by
  rcases hcase with ⟨hi, hf⟩ | ⟨hi, hd, hau⟩
  · have hsrv : ¬ (effServerUrl p w = "") := jsOrEmpty_ne_right hf
    by_cases hamb : (w.browser = true ∧ (w.inFrame = true ∨ w.inPopUp = true)
        ∧ p.completeInTarget = none)
      <;> by_cases hmul : (¬ truthyB p.multiple = true)
      <;> by_cases hnr : p.noRedirect = true
      <;> simp [authorize, hsrv, hi, hf, hamb, hmul, hnr,
            storageLookup_insert_self, svState, redirectW, sSetW]
  · have hsrv : ¬ (effServerUrl p w = "") := jsOrEmpty_ne hi
    have hauF : truthy (some exts.authorizeUri) = false := by simp [hau]
    have hbypass : ¬ (truthy (effFsu p w) = true ∧ truthy (effIss p w) = false) := by
      simp [hi]
    by_cases hamb : (w.browser = true ∧ (w.inFrame = true ∨ w.inPopUp = true)
        ∧ p.completeInTarget = none)
      <;> by_cases hmul : (¬ truthyB p.multiple = true)
      <;> by_cases hnr : p.noRedirect = true
      <;> simp [authorize, hsrv, hi, hd, hauF, hbypass, hamb, hmul, hnr,
            storageLookup_insert_self, svState, redirectW, sSetW]

/-- An open-server (`fhirServiceUrl`-only) launch configuration. -/
def pOpen : AuthorizeParams :=
  { fhirServiceUrl := some "https://open.example/fhir", noRedirect := true }

/-- Witness for C8: a `fhirServiceUrl`-only launch returns the short
`redirectUri?state=<key>` URL under `noRedirect`. -/
theorem authorize_open_server_witness :
    (storageLookup (authorize pOpen {}).2.storage "0000000000000000").isSome = true
    ∧ (authorize pOpen {}).1 = .ok (some ("https://app.example/." ++ "?state="
          ++ encodeURIComponent "0000000000000000")) := by
  have h := authorize_open_server pOpen {} {} (Or.inl ⟨by decide, by decide⟩)
  exact ⟨h.1, h.2.2.2.1 rfl⟩

/-- An EHR-launch configuration whose scope "relaunch" contains `launch`
as a substring but not as a space-delimited scope token. -/
def pRel : AuthorizeParams :=
  { iss := some "https://ehr.example/fhir", clientId := some "c",
    scope := "relaunch", launch := some "123", noRedirect := true }

/-- C9 counterexample: with a launch value present and a scope lacking a
`launch` token, the stored (and sent) scope is left unchanged, not
extended with a space and `launch` as the claim states. -/
theorem authorize_scope_counterexample :
    truthy (effLaunch pRel wDemo) = true
    ∧ (scopeTokens "relaunch").contains "launch" = false
    ∧ (svState (storageLookup (authorize pRel wDemo).2.storage
        "0000000000000000")).scope = some "relaunch"
    ∧ ("relaunch" = "relaunch" ++ " launch") = False := by
  refine ⟨by decide, by decide, ?_, by simp⟩
  decide

/-- C9 (amended). With a launch value present, the scope is extended
exactly when it does not contain `launch` as a substring (the source
tests `scope.match(/launch/)`, a substring test, not a token test): an
empty scope becomes `"launch"`, a non-empty one gets `" launch"`
appended; when the substring is already present (in particular when a
`launch` token is present) the scope is unchanged; and the persisted
state carries this effective scope. -/
theorem authorize_scope_amended (p : AuthorizeParams) (w : World)
    (hl : truthy (effLaunch p w) = true) :
    (hasSubstr p.scope "launch" = false →
      effScope p w = (if p.scope = "" then "launch" else p.scope ++ " launch"))
    ∧ (hasSubstr p.scope "launch" = true → effScope p w = p.scope)
    ∧ (∀ exts, truthy (effIss p w) = true → w.discoveryResp = .ok exts →
        (svState (storageLookup (authorize p w).2.storage w.stateKey)).scope
          = some (effScope p w)) := by
  refine ⟨?_, ?_, ?_⟩
  · intro hs
    by_cases he : p.scope = ""
    · rw [he] at hs
      simp [effScope, hl, hs, he]
    · simp [effScope, hl, hs, he]
  · intro hs
    simp [effScope, hs]
  · intro exts hi hd
    have hsrv : ¬ (effServerUrl p w = "") := jsOrEmpty_ne hi
    have hbypass : ¬ (truthy (effFsu p w) = true ∧ truthy (effIss p w) = false) := by
      simp [hi]
    by_cases hbr : w.browser = true
      <;> by_cases hamb : ((w.inFrame = true ∨ w.inPopUp = true)
            ∧ p.completeInTarget = none)
      <;> by_cases hmul : (¬ truthyB p.multiple = true)
      <;> by_cases hau : truthy (some exts.authorizeUri) = true
      <;> by_cases hnr : p.noRedirect = true
      <;> by_cases htgt : truthy p.target = true
      <;> simp [authorize, hsrv, hi, hd, hbypass, hbr, hamb, hmul, hau, hnr, htgt,
            storageLookup_insert_self, svState, redirectW, sSetW]

/-- Witness for C9 (amended) at the configuration of the
counterexample. -/
theorem authorize_scope_amended_witness :
    effScope pRel wDemo = "relaunch" := by
  have h := (authorize_scope_amended pRel wDemo (by decide)).2.1 (by decide)
  exact h

/-- Discovery-call events. -/
def isDiscEv : Ev → Bool
  | .netDiscovery _ => true
  | _ => false

/-- Storage-write events. -/
def isStoreWriteEv : Ev → Bool
  | .sSet _ _ => true
  | _ => false

/-- A write of a launch state (not a plain string alias) under key `k`. -/
def isLaunchWrite (k : String) : Ev → Bool
  | .sSet k' (.st _) => k' = k
  | _ => false

/-- The `completeInTarget` value after the iframe/popup defaulting. -/
def effCompleteInTarget (p : AuthorizeParams) (w : World) : Option Bool :=
  if w.browser = true ∧ (w.inFrame = true ∨ w.inPopUp = true)
      ∧ p.completeInTarget = none then
    some w.inFrame
  else p.completeInTarget

/-- The launch state as persisted under the fresh state key after
discovery succeeded with `exts`. -/
def authStoredState (p : AuthorizeParams) (w : World)
    (exts : OAuthSecurityExtensions) : SMARTState :=
  { clientId := p.clientId, scope := some (effScope p w),
    redirectUri := some (effRedirectUri p w), serverUrl := some (effServerUrl p w),
    clientSecret := p.clientSecret, authorizeUri := some exts.authorizeUri,
    tokenUri := some exts.tokenUri, registrationUri := some exts.registrationUri,
    tokenResponse := applyOverrides p {}, multiple := p.multiple,
    completeInTarget := effCompleteInTarget p w }

/-- C7 counterexample: a successful single-configuration `authorize` run
whose unique launch-state write under the fresh state key happens only
AFTER the network discovery call (nothing but the singular-key alias
precedes discovery). -/
theorem authorize_write_order_counterexample :
    (authorize pDemo wDemo).1
      = .ok (some (oauthRedirectUrl pDemo wDemo "https://ehr.example/auth"))
    ∧ (authorize pDemo wDemo).2.trace.countP (fun e => isDiscEv e) = 1
    ∧ ((authorize pDemo wDemo).2.trace.takeWhile fun e => ¬ isDiscEv e).countP
        (fun e => isLaunchWrite "0000000000000000" e) = 0
    ∧ (authorize pDemo wDemo).2.trace.countP
        (fun e => isLaunchWrite "0000000000000000" e) = 1 := by
  refine ⟨by rfl, by decide, by decide, by decide⟩

/-- C7 (amended). In a single-configuration `authorize` run that reaches
discovery (effective `iss` set, discovery succeeding), the only
storage-write preceding the discovery call is the singular-key alias
write (present exactly when not in `multiple` mode); the launch state
itself is written under the fresh state key right after discovery
returns. -/
theorem authorize_persist_order (p : AuthorizeParams) (w : World)
    (exts : OAuthSecurityExtensions)
    (hiss : truthy (effIss p w) = true)
    (hd : w.discoveryResp = .ok exts) :
    ((authorize p w).2.trace.drop w.trace.length).filter
        (fun e => isStoreWriteEv e || isDiscEv e)
      = (if truthyB p.multiple = false then [Ev.sSet SMART_KEY (.str w.stateKey)]
         else [])
        ++ [Ev.netDiscovery (effServerUrl p w),
            Ev.sSet w.stateKey (.st (authStoredState p w exts))] := by
  have hsrv : ¬ (effServerUrl p w = "") := jsOrEmpty_ne hiss
  have hbypass : ¬ (truthy (effFsu p w) = true ∧ truthy (effIss p w) = false) := by
    simp [hiss]
  by_cases hbr : w.browser = true
    <;> by_cases hamb : ((w.inFrame = true ∨ w.inPopUp = true)
          ∧ p.completeInTarget = none)
    <;> by_cases hmul : (¬ truthyB p.multiple = true)
    <;> by_cases hau : truthy (some exts.authorizeUri) = true
    <;> by_cases hnr : p.noRedirect = true
    <;> by_cases htgt : truthy p.target = true
    <;> simp [authorize, hsrv, hiss, hd, hbypass, hbr, hamb, hmul, hau, hnr, htgt,
          authStoredState, effCompleteInTarget, sSetW, redirectW,
          List.drop_left, isStoreWriteEv, isDiscEv]
    <;> simp [Bool.not_eq_true] at hmul
    <;> simp [hmul]

/-- Witness for C7 (amended) at the concrete demo launch. -/
theorem authorize_persist_order_witness :
    ((authorize pDemo wDemo).2.trace.drop wDemo.trace.length).filter
        (fun e => isStoreWriteEv e || isDiscEv e)
      = (if truthyB pDemo.multiple = false
         then [Ev.sSet SMART_KEY (.str wDemo.stateKey)] else [])
        ++ [Ev.netDiscovery (effServerUrl pDemo wDemo),
            Ev.sSet wDemo.stateKey (.st (authStoredState pDemo wDemo
              { authorizeUri := "https://ehr.example/auth",
                tokenUri := "https://ehr.example/token" }))] :=
  authorize_persist_order pDemo wDemo
    { authorizeUri := "https://ehr.example/auth", tokenUri := "https://ehr.example/token" }
    (by decide) rfl

theorem paramGet_delete_self (ps : List (String × String)) (k : String) :
    paramGet (paramDelete ps k) k = none := by
  have hnone : (ps.filter fun q => q.1 ≠ k).find? (fun q => q.1 = k) = none := by
    rw [List.find?_eq_none]
    intro x hx
    have hx2 := (List.mem_filter.mp hx).2
    simpa using hx2
  simp [paramGet, paramDelete, hnone]

theorem paramGet_delete_ne (ps : List (String × String)) (k k' : String)
    (h : k' ≠ k) : paramGet (paramDelete ps k) k' = paramGet ps k' := by
  simp only [paramGet, paramDelete]
  rw [find?_filter_ne ps k k' h]

/-- Token-endpoint call events. -/
def isTokenEv : Ev → Bool
  | .netToken _ _ => true
  | _ => false

/-- Any network event (discovery or token exchange). -/
def isNetEv : Ev → Bool
  | .netDiscovery _ => true
  | .netToken _ _ => true
  | _ => false

/-- C6. When the URL carries a (non-empty) `error` or `error_description`
parameter, `completeAuth` rejects immediately with an
`AuthorizationError` whose message joins the truthy values, and neither
reads nor writes anything: storage, URL and trace are untouched. -/
theorem completeAuth_auth_error (w : World)
    (herr : truthy (paramGet w.urlParams "error") = true
      ∨ truthy (paramGet w.urlParams "error_description") = true) :
    (completeAuth w).1 = .error ⟨.authorizationError,
      String.intercalate ": " (filterTruthy
        [paramGet w.urlParams "error", paramGet w.urlParams "error_description"])⟩
    ∧ (completeAuth w).2.storage = w.storage
    ∧ (completeAuth w).2.trace = w.trace
    ∧ (completeAuth w).2.urlParams = w.urlParams := by
  rcases herr with h | h <;> exact ⟨by simp [completeAuth, h], by simp [completeAuth, h],
    by simp [completeAuth, h], by simp [completeAuth, h]⟩

/-- A world landing back from the authorization server with a denial. -/
def wErr : World :=
  { urlParams := [("error", "access_denied"), ("error_description", "User declined")] }

/-- Witness for C6 at a concrete denial. -/
theorem completeAuth_auth_error_witness :
    (completeAuth wErr).1 = .error ⟨.authorizationError,
      String.intercalate ": " (filterTruthy
        [paramGet wErr.urlParams "error", paramGet wErr.urlParams "error_description"])⟩
    ∧ (completeAuth wErr).2.storage = wErr.storage
    ∧ (completeAuth wErr).2.trace = wErr.trace
    ∧ (completeAuth wErr).2.urlParams = wErr.urlParams :=
  completeAuth_auth_error wErr (Or.inl (by decide))

/-- C4. A `completeAuth` run that is already authorized (no `code`
parameter, or an access token already stored) performs no token exchange
and no network call at all, and still returns a revived session bound to
the stored state. -/
theorem completeAuth_already_authorized (w : World) (k : String) (st : SMARTState)
    (herr1 : truthy (paramGet w.urlParams "error") = false)
    (herr2 : truthy (paramGet w.urlParams "error_description") = false)
    (hkey : paramGet w.urlParams "state" = some k) (hk : k ≠ "")
    (hknk : k ≠ SMART_KEY)
    (hst : storageLookup w.storage k = some (.st st))
    (hhs : ¬ handshakeSend w.browser w.inFrame w.inPopUp
      (paramGet w.urlParams "complete") (some (.st st)))
    (hauth : truthy (paramGet w.urlParams "code") = false
      ∨ truthy st.tokenResponse.access_token = true) :
    (completeAuth w).1 = .ok (.client ⟨.st st, some k⟩)
    ∧ (completeAuth w).2.trace.countP (fun e => isNetEv e)
        = w.trace.countP (fun e => isNetEv e)
    ∧ storageLookup (completeAuth w).2.storage k = some (.st st) := by
  have hm1 := storageLookup_insert_self
  have hm2 := storageLookup_insert_ne
  rcases hauth with h | h
    <;> by_cases hcode : truthy (paramGet w.urlParams "code") = true
    <;> by_cases hm : truthyB st.multiple = true
    <;> by_cases hbrow : w.browser = true
    <;> by_cases hrep : w.hasReplaceState = true
    <;> simp_all [completeAuth, finishAuth, cleanUpUrl, cleanUpDispatch, getClient,
          mapClient, sGetW, sSetW, redirectW, svState, svTruthy, hk, hknk,
          paramGet_delete_self, paramGet_delete_ne, List.countP_append, isNetEv]

/-- C3. A `completeAuth` run carrying a fresh `code` with a stored,
not-yet-authorized state whose `tokenUri` is set invokes the Token
Exchanger once, computes `expiresAt`, persists the merged state carrying
the fresh token response, and returns a session bound to it; afterwards
the URL carries no `code` parameter, and carries `state` only in
`multiple` mode — the state key having been re-aliased under `SMART_KEY`
otherwise. -/
theorem completeAuth_code_exchange (w : World) (k c tu : String) (st : SMARTState)
    (req : RequestOptions) (resp : TokenResponse)
    (herr1 : truthy (paramGet w.urlParams "error") = false)
    (herr2 : truthy (paramGet w.urlParams "error_description") = false)
    (hcode : paramGet w.urlParams "code" = some c) (hc : c ≠ "")
    (hkey : paramGet w.urlParams "state" = some k) (hk : k ≠ "")
    (hknk : k ≠ SMART_KEY)
    (hst : storageLookup w.storage k = some (.st st))
    (hhs : ¬ handshakeSend w.browser w.inFrame w.inPopUp
      (paramGet w.urlParams "complete") (some (.st st)))
    (hnoauth : truthy st.tokenResponse.access_token = false)
    (htu : st.tokenUri = some tu) (htune : tu ≠ "")
    (hreq : buildTokenRequest c st = .ok req)
    (htr : w.transportResp = .ok resp)
    (hat : truthy resp.access_token = true) :
    (completeAuth w).1 = .ok (.client ⟨.st { st with
        expiresAt := some (w.expirationFn resp), tokenResponse := resp }, some k⟩)
    ∧ storageLookup (completeAuth w).2.storage k = some (.st { st with
        expiresAt := some (w.expirationFn resp), tokenResponse := resp })
    ∧ (completeAuth w).2.trace.countP (fun e => isTokenEv e)
        = w.trace.countP (fun e => isTokenEv e) + 1
    ∧ paramGet (completeAuth w).2.urlParams "code" = none
    ∧ (truthyB st.multiple = false →
        paramGet (completeAuth w).2.urlParams "state" = none
        ∧ storageLookup (completeAuth w).2.storage SMART_KEY = some (.str k))
    ∧ (truthyB st.multiple = true →
        paramGet (completeAuth w).2.urlParams "state" = some k) := by
  by_cases hm : truthyB st.multiple = true
    <;> by_cases hbrow : w.browser = true
    <;> by_cases hrep : w.hasReplaceState = true
    <;> simp_all [completeAuth, getAccessToken, finishAuth, cleanUpUrl,
          cleanUpDispatch, getClient, mapClient, sGetW, sSetW, redirectW, svState,
          svTruthy, hk, hknk, storageLookup_insert_self, storageLookup_insert_ne,
          paramGet_delete_self, paramGet_delete_ne, List.countP_append, isTokenEv]

/-- A stored state that already carries an access token. -/
def stAuthzed : SMARTState :=
  { tokenUri := some "https://ehr.example/token",
    tokenResponse := { access_token := some "tok123" } }

/-- A page reload world: `state` in the URL, authorized state stored. -/
def wReload : World :=
  { urlParams := [("state", "K")], storage := [("K", .st stAuthzed)] }

/-- Witness for C4 at a concrete reload. -/
theorem completeAuth_already_authorized_witness :
    (completeAuth wReload).1 = .ok (.client ⟨.st stAuthzed, some "K"⟩)
    ∧ (completeAuth wReload).2.trace.countP (fun e => isNetEv e)
        = wReload.trace.countP (fun e => isNetEv e)
    ∧ storageLookup (completeAuth wReload).2.storage "K" = some (.st stAuthzed) :=
  completeAuth_already_authorized wReload "K" stAuthzed rfl rfl rfl (by decide)
    (by decide) rfl (by decide) (Or.inl rfl)

/-- The stored state of the code-exchange witness. -/
def stTok : SMARTState :=
  { clientId := some "abc", redirectUri := some "https://app.example/",
    serverUrl := some "https://ehr.example/fhir",
    tokenUri := some "https://ehr.example/token" }

/-- A world landing back from the auth server with `code` and `state`. -/
def wTok : World :=
  { urlParams := [("code", "xyz"), ("state", "K")],
    storage := [("K", .st stTok)],
    transportResp := .ok { access_token := some "tok123" },
    expirationFn := fun _ => 999 }

/-- The fresh token response of the code-exchange witness. -/
def respTok : TokenResponse := { access_token := some "tok123" }

/-- The request options built for the code-exchange witness. -/
def reqTok : RequestOptions :=
  { authorization := none,
    body := "code=xyz&grant_type=authorization_code&redirect_uri="
      ++ encodeURIComponent "https://app.example/" ++ "&client_id="
      ++ encodeURIComponent "abc" }

/-- Witness for C3 at a concrete code exchange. -/
theorem completeAuth_code_exchange_witness :
    (completeAuth wTok).1 = .ok (.client ⟨.st { stTok with
        expiresAt := some (wTok.expirationFn respTok), tokenResponse := respTok },
        some "K"⟩)
    ∧ paramGet (completeAuth wTok).2.urlParams "code" = none
    ∧ (truthyB stTok.multiple = false →
        paramGet (completeAuth wTok).2.urlParams "state" = none
        ∧ storageLookup (completeAuth wTok).2.storage SMART_KEY = some (.str "K")) := by
  have h := completeAuth_code_exchange wTok "K" "xyz" "https://ehr.example/token"
    stTok reqTok respTok
    rfl rfl rfl (by decide) rfl (by decide) (by decide) rfl (by decide) rfl rfl
    (by decide) (by rfl) rfl (by decide)
  exact ⟨h.1, h.2.2.2.1, h.2.2.2.2.1⟩

/-- C10. When `ready` runs on a page whose URL carries neither `code` nor
`state` and nothing is stored under the singular key, it rejects with the
"No state found in storage" `ConfigError` after a single storage read —
no launch, navigation, network call or write happens — whereas `init` in
the same situation falls through to `authorize`. -/
theorem ready_no_state (w : World)
    (hcode : truthy (paramGet w.urlParams "code") = false)
    (hstate : truthy (paramGet w.urlParams "state") = false)
    (hkey : storageLookup w.storage SMART_KEY = none) :
    (ready w).1 = .error ⟨.configError,
      "No state found in storage. Please (re)launch the SMART app"⟩
    ∧ (ready w).2.trace = w.trace ++ [Ev.sGet SMART_KEY]
    ∧ (ready w).2.storage = w.storage
    ∧ (ready w).2.urlParams = w.urlParams
    ∧ (∀ p : AuthorizeParams,
        init p w
          = (match authorize p { w with trace := w.trace ++ [Ev.sGet SMART_KEY] } with
             | (.error e, w') => ((.error e : Except SmartError Outcome), w')
             | (.ok _, w') => (.ok .pending, w'))) := by
  refine ⟨?_, ?_, ?_, ?_, ?_⟩
    <;> simp [ready, init, getClient, mapClient, sGetW, hcode, hstate, hkey]

/-- Witness for C10 on an empty session: `ready` rejects, `init` reaches
`authorize` (which here fails for want of a server URL, through the same
match). -/
theorem ready_no_state_witness :
    (ready {}).1 = .error ⟨.configError,
      "No state found in storage. Please (re)launch the SMART app"⟩
    ∧ (ready {}).2.storage = World.storage {}
    ∧ (init {} {})
        = (match authorize {} { trace := [Ev.sGet SMART_KEY] } with
           | (.error e, w') => ((.error e : Except SmartError Outcome), w')
           | (.ok _, w') => (.ok .pending, w')) := by
  have h := ready_no_state {} rfl rfl rfl
  exact ⟨h.1, h.2.2.1, h.2.2.2.2 {}⟩

/-! ## Discovery Race Coordinator (`any`)

`any(tasks)` attaches a success/failure continuation to every task and
settles once: the first success resolves the race and aborts every task
not yet marked complete; each failure is pushed onto `errors` and, when
the count reaches the task count, the race rejects with the messages
joined by `"; "`.  The event loop delivers the settlements in some
order, so the embedding folds the source's two callbacks over a
settlement schedule (a permutation of the task indices). -/

instance exceptDecEq {ε α : Type} [DecidableEq ε] [DecidableEq α] :
    DecidableEq (Except ε α) := fun a b =>
  match a, b with
  | .error e, .error f =>
    if h : e = f then .isTrue (by rw [h]) else .isFalse (fun hh => h (by simpa using hh))
  | .error _, .ok _ => .isFalse (fun hh => Except.noConfusion hh)
  | .ok _, .error _ => .isFalse (fun hh => Except.noConfusion hh)
  | .ok x, .ok y =>
    if h : x = y then .isTrue (by rw [h]) else .isFalse (fun hh => h (by simpa using hh))

/-- Settlement of one discovery task. -/
inductive TaskOutcome where
  | ok (v : String)
  | err (msg : String)
deriving DecidableEq, Repr

/-- The race bookkeeping: the source's per-task `complete` flags, the
`errors` array and the `resolved` flag, the once-settled promise value,
and the set of aborted tasks. -/
structure RaceState where
  complete : List Nat := []
  errors : List String := []
  resolvedFlag : Bool := false
  settled : Option (Except String String) := none
  aborted : List Nat := []
deriving DecidableEq, Repr

/-- The failure message of task `j`. -/
def errMsgAt (outcomes : List TaskOutcome) (j : Nat) : String :=
  match outcomes[j]? with
  | some (.err m) => m
  | _ => ""

/-- One settlement: `onSuccess` marks the task complete and, when the
race is not yet resolved, resolves it and aborts every task without a
`complete` flag; `onError` pushes the message and, when every task has
failed, rejects with the joined messages.  A settled promise ignores
later resolutions and rejections (`Option.orElse`). -/
def raceEvent (outcomes : List TaskOutcome) (i : Nat) (s : RaceState) : RaceState :=
  match outcomes[i]? with
  | some (.ok v) =>
    let comp := s.complete ++ [i]
    if s.resolvedFlag then { s with complete := comp }
    else
      { s with
        complete := comp, resolvedFlag := true,
        settled := s.settled.orElse (fun _ => some (.ok v)),
        aborted := s.aborted
          ++ (List.range outcomes.length).filter (fun j => ¬ j ∈ comp) }
  | some (.err m) =>
    let errs := s.errors ++ [m]
    if errs.length = outcomes.length then
      { s with
        errors := errs,
        settled := s.settled.orElse
          (fun _ => some (.error (String.intercalate "; " errs))) }
    else { s with errors := errs }
  | none => s

/-- Folding the settlements over the schedule. -/
def runRace (outcomes : List TaskOutcome) : List Nat → RaceState → RaceState
  | [], s => s
  | i :: rest, s => runRace outcomes rest (raceEvent outcomes i s)

/-- Shallow embedding of `any(tasks)` under a settlement schedule. -/
def anyRace (outcomes : List TaskOutcome) (schedule : List Nat) : RaceState :=
  runRace outcomes schedule {}

theorem runRace_append (outcomes : List TaskOutcome) (l1 l2 : List Nat)
    (s : RaceState) :
    runRace outcomes (l1 ++ l2) s = runRace outcomes l2 (runRace outcomes l1 s) := by
  induction l1 generalizing s with
  | nil => rfl
  | cons i rest ih => simp [runRace, ih]

theorem raceEvent_settled_mono (outcomes : List TaskOutcome) (i : Nat)
    (s : RaceState) (x : Except String String) (h : s.settled = some x) :
    (raceEvent outcomes i s).settled = some x := by
  unfold raceEvent
  cases outcomes[i]? with
  | none => exact h
  | some o =>
    cases o with
    | ok v =>
      by_cases hr : s.resolvedFlag = true <;> simp [hr, h, Option.orElse]
    | err m =>
      by_cases hl : s.errors.length + 1 = outcomes.length
        <;> simp [hl, h, Option.orElse]

theorem raceEvent_aborted_mono (outcomes : List TaskOutcome) (i : Nat)
    (s : RaceState) (j : Nat) (h : j ∈ s.aborted) :
    j ∈ (raceEvent outcomes i s).aborted := by
  unfold raceEvent
  cases outcomes[i]? with
  | none => exact h
  | some o =>
    cases o with
    | ok v =>
      by_cases hr : s.resolvedFlag = true <;> simp [hr, h]
    | err m =>
      by_cases hl : s.errors.length + 1 = outcomes.length
        <;> simp [hl, h]

theorem runRace_settled_mono (outcomes : List TaskOutcome) (sch : List Nat)
    (s : RaceState) (x : Except String String) (h : s.settled = some x) :
    (runRace outcomes sch s).settled = some x := by
  induction sch generalizing s with
  | nil => exact h
  | cons i rest ih =>
    exact ih _ (raceEvent_settled_mono outcomes i s x h)

theorem runRace_aborted_mono (outcomes : List TaskOutcome) (sch : List Nat)
    (s : RaceState) (j : Nat) (h : j ∈ s.aborted) :
    j ∈ (runRace outcomes sch s).aborted := by
  induction sch generalizing s with
  | nil => exact h
  | cons i rest ih =>
    exact ih _ (raceEvent_aborted_mono outcomes i s j h)

theorem runRace_errors (outcomes : List TaskOutcome) (pre : List Nat)
    (s : RaceState)
    (hall : ∀ j ∈ pre, ∃ m, outcomes[j]? = some (.err m))
    (hlen : s.errors.length + pre.length < outcomes.length) :
    runRace outcomes pre s
      = { s with errors := s.errors ++ pre.map (errMsgAt outcomes) } := by
  induction pre generalizing s with
  | nil => simp [runRace]
  | cons i rest ih =>
    obtain ⟨m, hm⟩ := hall i (by simp)
    have hne : ¬ (s.errors.length + 1 = outcomes.length) := by
      simp only [List.length_cons] at hlen
      omega
    have hstep : raceEvent outcomes i s = { s with errors := s.errors ++ [m] } := by
      unfold raceEvent
      rw [hm]
      simp [hne]
    rw [runRace, hstep, ih]
    · simp [errMsgAt, hm]
    · intro j hj
      exact hall j (by simp [hj])
    · simp only [List.length_append, List.length_cons, List.length_nil] at hlen ⊢
      omega

theorem runRace_all_err (outcomes : List TaskOutcome) (sch : List Nat)
    (s : RaceState)
    (hall : ∀ j ∈ sch, ∃ m, outcomes[j]? = some (.err m))
    (hset : s.settled = none)
    (hlen : s.errors.length + sch.length = outcomes.length)
    (hne : sch ≠ []) :
    (runRace outcomes sch s).settled
      = some (.error (String.intercalate "; "
          (s.errors ++ sch.map (errMsgAt outcomes)))) := by
  induction sch generalizing s with
  | nil => exact absurd rfl hne
  | cons i rest ih =>
    obtain ⟨m, hm⟩ := hall i (by simp)
    by_cases hr : rest = []
    · subst hr
      have hfull : s.errors.length + 1 = outcomes.length := by
        simp only [List.length_cons, List.length_nil] at hlen
        omega
      rw [runRace, runRace]
      unfold raceEvent
      rw [hm]
      simp [hfull, hset, Option.orElse, errMsgAt, hm]
    · have hlt : ¬ (s.errors.length + 1 = outcomes.length) := by
        have hp : 0 < rest.length := List.length_pos.mpr hr
        simp only [List.length_cons] at hlen
        omega
      have hstep : raceEvent outcomes i s = { s with errors := s.errors ++ [m] } := by
        unfold raceEvent
        rw [hm]
        simp [hlt]
      rw [runRace, hstep, ih]
      · simp [errMsgAt, hm]
      · intro j hj
        exact hall j (by simp [hj])
      · exact hset
      · simp only [List.length_cons] at hlen
        simp only [List.length_append, List.length_cons, List.length_nil]
        omega
      · exact hr

/-- C5 (amended).  Under any settlement schedule (a permutation of the
task indices): if the schedule's first success is task `i0` with value
`v`, the race settles with `v` and every task still pending at that
moment (settling after `i0`) has its cancellation triggered; if every
task fails, the race rejects with the failure messages joined by `"; "`
in SETTLEMENT order (a permutation of the task-order messages, equal to
it when the failures settle in task order). -/
theorem any_race_correct (outcomes : List TaskOutcome) (schedule : List Nat)
    (hperm : schedule.Perm (List.range outcomes.length)) :
    (∀ pre i0 post v, schedule = pre ++ i0 :: post →
        (∀ j ∈ pre, ∃ m, outcomes[j]? = some (.err m)) →
        outcomes[i0]? = some (.ok v) →
        (anyRace outcomes schedule).settled = some (.ok v)
        ∧ ∀ j ∈ post, j ∈ (anyRace outcomes schedule).aborted)
    ∧ ((∀ j ∈ schedule, ∃ m, outcomes[j]? = some (.err m)) → outcomes ≠ [] →
        (anyRace outcomes schedule).settled
          = some (.error (String.intercalate "; "
              (schedule.map (errMsgAt outcomes))))
        ∧ (schedule.map (errMsgAt outcomes)).Perm
            ((List.range outcomes.length).map (errMsgAt outcomes))) := by
  constructor
  · intro pre i0 post v hsch hpre hok
    subst hsch
    have hlen : (pre ++ i0 :: post).length = outcomes.length := by
      rw [hperm.length_eq, List.length_range]
    have hlt : ({} : RaceState).errors.length + pre.length < outcomes.length := by
      simp only [List.length_append, List.length_cons] at hlen
      simp only [List.length_nil]
      omega
    have h1 := runRace_errors outcomes pre {} hpre hlt
    have hstep : raceEvent outcomes i0 { errors := pre.map (errMsgAt outcomes) }
        = { complete := [i0], errors := pre.map (errMsgAt outcomes),
            resolvedFlag := true, settled := some (.ok v),
            aborted := (List.range outcomes.length).filter fun j => ¬ j ∈ [i0] } := by
      unfold raceEvent
      rw [hok]
      simp [Option.orElse]
    have hnodup : (pre ++ i0 :: post).Nodup :=
      hperm.symm.nodup (List.nodup_range _)
    constructor
    · rw [anyRace, runRace_append, h1]
      simp only [List.nil_append]
      rw [runRace, hstep]
      exact runRace_settled_mono _ _ _ _ rfl
    · intro j hj
      rw [anyRace, runRace_append, h1]
      simp only [List.nil_append]
      rw [runRace, hstep]
      apply runRace_aborted_mono
      have hji : j ≠ i0 := by
        intro hh
        subst hh
        have := (List.nodup_append.mp hnodup).2.1
        simp at this
        exact this.1 hj
      have hjlen : j < outcomes.length := by
        have hmem : j ∈ pre ++ i0 :: post := by simp [hj]
        have := hperm.mem_iff.mp hmem
        simpa using this
      simp [List.mem_filter, List.mem_range, hjlen, hji]
  · intro hall hne
    have hlen0 : schedule.length = outcomes.length := by
      rw [hperm.length_eq, List.length_range]
    have hsne : schedule ≠ [] := by
      intro h
      subst h
      simp at hlen0
      exact hne (List.eq_nil_of_length_eq_zero hlen0.symm)
    constructor
    · have h := runRace_all_err outcomes schedule {} hall rfl (by simpa using hlen0) hsne
      simpa using h
    · exact hperm.map (errMsgAt outcomes)

/-- Witness for C5 (amended): one success and one failure; the success
settles first, the race resolves with it and the pending task is
aborted. -/
theorem any_race_correct_witness :
    (anyRace [.ok "X", .err "E"] [0, 1]).settled = some (.ok "X")
    ∧ 1 ∈ (anyRace [.ok "X", .err "E"] [0, 1]).aborted := by
  have h := (any_race_correct [.ok "X", .err "E"] [0, 1] (by decide)).1
    [] 0 [1] "X" rfl (by simp) (by decide)
  exact ⟨h.1, h.2 1 (by simp)⟩

/-- C5 counterexample: two tasks that both fail, the second settling
first — a legitimate schedule (a permutation of the indices) — reject
with "B; A", the settlement order, not with the task-order
concatenation "A; B". -/
theorem any_race_task_order_counterexample :
    ([1, 0].Perm (List.range 2))
    ∧ (anyRace [.err "A", .err "B"] [1, 0]).settled = some (.error "B; A")
    ∧ ((anyRace [.err "A", .err "B"] [1, 0]).settled
        = some (.error (String.intercalate "; " ["A", "B"]))) = False := by
  refine ⟨by decide, by decide, by simp only [eq_iff_iff, iff_false]; decide⟩

end FhirClient
